import Mathlib

/-!
Shallow embedding of the CrateDB SQLAlchemy dialect statement compiler
(`src/crate/client/sqlalchemy/compiler.py`), covering the dirty-tracking
update rewrite (`rewrite_update`), the INSERT and UPDATE text compilers,
the DDL table-options compiler (`post_create_table`), the type compiler
(`visit_ARRAY`), and the 1.4-era crud-parameter resolution
(`_get_crud_params_14`).

Python dictionaries are embedded as association lists with
insert-or-overwrite-in-place semantics (`dictInsert`), matching CPython's
insertion-order-preserving dictionaries.  Machinery belonging to upstream
SQLAlchemy (the base compiler's sub-renderers, the crud helper functions)
is out of scope of the repository and is passed in as explicit context
arguments or modelled from the specification where a claim needs it.
-/

/-- Scalar values appearing in parameter mappings and inside tracked
documents.  Nested documents do not occur in any property considered here. -/
inductive SubVal where
  | snull : SubVal
  | sint (n : Int) : SubVal
  | sstr (s : String) : SubVal
  deriving DecidableEq, Repr

/-- A `MutableDict` (tracked document): a key-value mapping together with
the sets of changed and deleted keys recorded since the value was loaded.
The class itself lives in `types.py`, outside the compiler module; its
data content is what `rewrite_update` consumes. -/
structure MutableDict where
  items : List (String × SubVal)
  _changed_keys : List String
  _deleted_keys : List String
  deriving DecidableEq, Repr

/-- A bound parameter value: a plain scalar or a tracked document. -/
inductive Val where
  | scalar (v : SubVal) : Val
  | doc (d : MutableDict) : Val
  deriving DecidableEq, Repr

/-- A table column, as far as rendering is concerned: its (already
formatted) name and the (already formatted) name of its table. -/
structure Column where
  name : String
  tableName : String
  deriving DecidableEq, Repr

/-- A key of a statement's `parameters` mapping: either a plain string or
a column object.  `visit_update` treats the two differently. -/
inductive ParamKey where
  | str (s : String) : ParamKey
  | col (c : Column) : ParamKey
  deriving DecidableEq, Repr

/-- A parameter mapping, i.e. one Python dict of bound values. -/
abbrev ParamMap := List (String × Val)

/-- Python dict assignment `m[k] = v`: overwrite in place when the key is
present, append otherwise. -/
def dictInsert {κ α : Type} [DecidableEq κ] (m : List (κ × α)) (k : κ) (v : α) :
    List (κ × α) :=
  if k ∈ m.map Prod.fst then
    m.map (fun p => if p.1 = k then (k, v) else p)
  else
    m ++ [(k, v)]

/-- Python dict lookup `m[k]` (first matching key). -/
def dictGet {κ α : Type} [DecidableEq κ] (m : List (κ × α)) (k : κ) : Option α :=
  match m with
  | [] => none
  | p :: rest => if p.1 = k then some p.2 else dictGet rest k

/-- Python `any()` over a collection of strings: true iff some element is
truthy, i.e. a non-empty string. -/
def anyTruthy (ks : List String) : Bool :=
  ks.any (fun s => s != "")

/-- The partial-update path key `"<column>['<key>']"` built by
`rewrite_update` (`"{0}['{1}']".format(key, subkey)` in the source). -/
def pathKey (key subkey : String) : String :=
  key ++ "['" ++ subkey ++ "']"

/-- The data of an UPDATE statement object consumed by `rewrite_update`
and by the pre-1.4 `visit_update`.  Sub-clauses rendered by upstream
SQLAlchemy machinery (WHERE text, LIMIT text, prefix text) are carried in
already-rendered form. -/
structure UpdateStmt where
  parameters : Option (List (ParamKey × Val))
  _crate_specific : Bool
  _extra_froms : List String
  prefixText : Option String
  hasHints : Bool
  whereClause : Option String
  limitClause : Option String
  returningCols : List String
  deriving DecidableEq, Repr

/-- `clauseelement.values(d)`: merge the string-keyed dict `d` into the
statement's `parameters` mapping. -/
def UpdateStmt.values (s : UpdateStmt) (d : ParamMap) : UpdateStmt :=
  { s with
      parameters :=
        some (d.foldl (fun acc kv => dictInsert acc (ParamKey.str kv.1) kv.2)
          (s.parameters.getD [])) }

/-- The body of the `for key, val in _params.items()` loop of
`rewrite_update`: pass non-tracked values (and tracked documents with no
truthy changed or deleted key) through unchanged; otherwise emit one path
entry per changed key present in the document (bound to its current
value) and one per deleted key (bound to null), dropping the original
whole-document entry. -/
def rewriteStep (newparams : ParamMap) (kv : String × Val) : ParamMap :=
  match kv.2 with
  | Val.scalar v => dictInsert newparams kv.1 (Val.scalar v)
  | Val.doc d =>
    if !(anyTruthy d._changed_keys) && !(anyTruthy d._deleted_keys) then
      dictInsert newparams kv.1 (Val.doc d)
    else
      let np := d.items.foldl (fun acc sv =>
        if sv.1 ∈ d._changed_keys then
          dictInsert acc (pathKey kv.1 sv.1) (Val.scalar sv.2)
        else acc) newparams
      d._deleted_keys.foldl (fun acc sk =>
        dictInsert acc (pathKey kv.1 sk) (Val.scalar SubVal.snull)) np

/-- The rewrite of one parameter mapping performed by `rewrite_update`
for each `_params` in `_multiparams`. -/
def rewriteParams (ps : ParamMap) : ParamMap :=
  ps.foldl rewriteStep []

/-- `rewrite_update(clauseelement, multiparams, params)`: change the
parameters of an UPDATE statement to enable partial updates of
`MutableDict`-typed columns.  An empty parameter-set list is returned
unchanged; otherwise each mapping is rewritten, the first rewritten
mapping is folded into the statement via `.values(...)`, and the
`_crate_specific` marker is attached to the returned statement. -/
def rewrite_update (clauseelement : UpdateStmt) (multiparams : List (List ParamMap))
    (params : ParamMap) :
    UpdateStmt × List (List ParamMap) × ParamMap :=
  let _multiparams := multiparams.headD []
  if _multiparams.length = 0 then
    (clauseelement, multiparams, params)
  else
    let newmultiparams := _multiparams.map rewriteParams
    let clause := clauseelement.values (newmultiparams.headD [])
    let clause := { clause with _crate_specific := true }
    (clause, [newmultiparams], params)

/-- The pass-through condition of the `rewrite_update` loop: a value is
left alone iff it is not a tracked document, or is a tracked document
none of whose changed or deleted keys is truthy. -/
def passThrough : Val → Prop
  | Val.scalar _ => True
  | Val.doc d => anyTruthy d._changed_keys = false ∧ anyTruthy d._deleted_keys = false

instance (v : Val) : Decidable (passThrough v) := by
  cases v with
  | scalar s => exact isTrue trivial
  | doc d => exact inferInstanceAs (Decidable (_ ∧ _))

/-- The keys of an association list are pairwise distinct (the invariant
of every Python dict). -/
def keysNodup {κ α : Type} (m : List (κ × α)) : Prop :=
  (m.map Prod.fst).Nodup

instance {κ α : Type} [DecidableEq κ] (m : List (κ × α)) : Decidable (keysNodup m) :=
  inferInstanceAs (Decidable ((m.map Prod.fst).Nodup))

/-- The number of entries of `m` carrying the key `k`. -/
def countKey {κ α : Type} [DecidableEq κ] (m : List (κ × α)) (k : κ) : Nat :=
  match m with
  | [] => 0
  | p :: rest => (if p.1 = k then 1 else 0) + countKey rest k


/-! ### Version numbers and capability flags -/

/-- Python tuple comparison on three-component version numbers. -/
def verLT (a b : Nat × Nat × Nat) : Bool :=
  decide (a.1 < b.1) ||
    (decide (a.1 = b.1) && (decide (a.2.1 < b.2.1) ||
      (decide (a.2.1 = b.2.1) && decide (a.2.2 < b.2.2))))

def verGE (a b : Nat × Nat × Nat) : Bool :=
  !(verLT a b)

/-- CrateDB supports `INSERT INTO ... SELECT ...` without parentheses
from this server version on. -/
def INSERT_SELECT_WITHOUT_PARENTHESES_MIN_VERSION : Nat × Nat × Nat :=
  (1, 0, 1)

/-- The SQLAlchemy 1.4 version marker (`SA_1_4` in `sa_version.py`);
SQLAlchemy versions are carried as a single comparable number here. -/
def SA_1_4 : Nat := 14

/-- The capability descriptor of the dialect consulted by the compilers. -/
structure Dialect where
  name : String
  server_version_info : Nat × Nat × Nat
  supports_default_values : Bool
  supports_empty_insert : Bool
  supports_multivalues_insert : Bool
  deriving DecidableEq, Repr

/-! ### Column and clause rendering primitives -/

/-- `column._compiler_dispatch(self, include_table=...)` for a plain
column: the bare formatted name, or the table-qualified name. -/
def compilerDispatch (c : Column) (includeTable : Bool) : String :=
  if includeTable then c.tableName ++ "." ++ c.name else c.name

/-- `preparer.format_column(c)` for plain identifiers needing no quoting. -/
def format_column (c : Column) : String :=
  c.name

/-- `returning_clause`: `RETURNING` followed by the comma-joined rendered
returning columns. -/
def returning_clause (cols : List String) : String :=
  "RETURNING " ++ String.intercalate ", " cols

/-! ### INSERT compiler -/

/-- The data of an INSERT statement: table text, rendered prefix text (if
`_prefixes` is set), the `_hints` mapping `(table, dialect) -> hint`,
rendered returning columns, and the rendered SELECT body when the insert
is an INSERT-from-SELECT. -/
structure InsertStmt where
  table : String
  prefixText : Option String
  hints : List ((String × String) × String)
  returningCols : List String
  selectText : Option String
  deriving DecidableEq, Repr

/-- Compiler-state inputs of `visit_insert` that belong to the upstream
base class: the base compiler delegation result, the hint formatter, the
pre-existing `self.returning` collection and the returning placement flag,
plus the running SQLAlchemy version. -/
structure InsertCompilerCtx where
  superText : String
  hintedTableText : String → String → String
  compilerReturning : List String
  returning_precedes_values : Bool
  saVersion : Nat

/-- The crud parameters handed to `visit_insert` by crud resolution: a
single row of `(column, bind text)` pairs, or one row per parameter set
for a multi-parameter insert. -/
inductive CrudParams where
  | single (ps : List (Column × String)) : CrudParams
  | multi (pss : List (List (Column × String))) : CrudParams
  deriving DecidableEq, Repr

/-- `insert_stmt._has_multi_parameters`, which in the source always agrees
with the shape crud resolution produced. -/
def hasMultiParameters : CrudParams → Bool
  | CrudParams.single _ => false
  | CrudParams.multi _ => true

/-- Python truthiness of the crud-parameter collection (`not crud_params`). -/
def crudIsEmpty : CrudParams → Bool
  | CrudParams.single ps => ps.isEmpty
  | CrudParams.multi pss => pss.isEmpty

/-- `crud_params[0]` for a multi-parameter insert, `crud_params` itself
otherwise. -/
def crudParamsSingle : CrudParams → List (Column × String)
  | CrudParams.single ps => ps
  | CrudParams.multi pss => pss.headD []

/-- `CrateCompiler.visit_insert`: delegate to the base compiler at or
above the parentheses threshold; below it (legacy SQLAlchemy only),
hand-build the INSERT text, wrapping an INSERT-from-SELECT body in
parentheses and rendering multi-row VALUES tuples.  Crud resolution is
performed by the (upstream) crud module and its result is an argument. -/
def visit_insert (dialect : Dialect) (ctx : InsertCompilerCtx) (stmt : InsertStmt)
    (crud_params : CrudParams) : Except String String :=
  if verGE dialect.server_version_info INSERT_SELECT_WITHOUT_PARENTHESES_MIN_VERSION then
    Except.ok ctx.superText
  else if ctx.saVersion ≥ SA_1_4 then
    Except.error
      "CrateDB version below the INSERT-from-SELECT threshold is not supported with SQLAlchemy 1.4"
  else if crudIsEmpty crud_params && !dialect.supports_default_values &&
      !dialect.supports_empty_insert then
    Except.error ("The " ++ dialect.name ++
      " dialect with current database version settings does not support empty inserts.")
  else if hasMultiParameters crud_params && !dialect.supports_multivalues_insert then
    Except.error ("The " ++ dialect.name ++
      " dialect with current database version settings does not support in-place multirow inserts.")
  else
    let crud_params_single := crudParamsSingle crud_params
    let text := "INSERT "
    let text := text ++ stmt.prefixText.getD ""
    let text := text ++ "INTO "
    let table_text := stmt.table
    let dialect_hints := stmt.hints.filter (fun h => h.1.2 == "*" || h.1.2 == dialect.name)
    let table_text :=
      match dialect_hints.find? (fun h => h.1.1 == stmt.table) with
      | some h => ctx.hintedTableText table_text h.2
      | none => table_text
    let text := text ++ table_text
    let text :=
      if !crud_params_single.isEmpty || !dialect.supports_default_values then
        text ++ " (" ++
          String.intercalate ", " (crud_params_single.map (fun c => format_column c.1)) ++ ")"
      else text
    let returningL :=
      if !ctx.compilerReturning.isEmpty then ctx.compilerReturning else stmt.returningCols
    let text :=
      if !returningL.isEmpty && ctx.returning_precedes_values then
        text ++ " " ++ returning_clause returningL
      else text
    let text :=
      match stmt.selectText with
      | some sel => text ++ " (" ++ sel ++ ")"
      | none =>
        if crudIsEmpty crud_params && dialect.supports_default_values then
          text ++ " DEFAULT VALUES"
        else
          match crud_params with
          | CrudParams.multi pss =>
            text ++ " VALUES " ++ String.intercalate ", "
              (pss.map (fun ps => "(" ++ String.intercalate ", " (ps.map Prod.snd) ++ ")"))
          | CrudParams.single ps =>
            text ++ " VALUES (" ++ String.intercalate ", " (ps.map Prod.snd) ++ ")"
    let text :=
      if !returningL.isEmpty && !ctx.returning_precedes_values then
        text ++ " " ++ returning_clause returningL
      else text
    Except.ok text

/-- Modelled from the spec: upstream SQLAlchemy's
`_extend_values_for_multiparams` (not part of this repository).  The
first row's resolved entries define the column order and bind shape; each
subsequent parameter row is expanded on the same column order, one VALUES
tuple per row, falling back to row 0's resolved bind when a key is
absent from that row. -/
def extend_values_for_multiparams (values0 : List (Column × String))
    (multiparams : List (List (String × SubVal)))
    (renderBind : String → SubVal → String) : List (List (Column × String)) :=
  values0 :: (multiparams.drop 1).map (fun row =>
    values0.map (fun cb =>
      (cb.1,
        match dictGet row cb.1.name with
        | some v => renderBind cb.1.name v
        | none => cb.2)))

/-! ### UPDATE compiler (pre-1.4 path) -/

/-- Python truthiness of `update_stmt.parameters`. -/
def paramsTruthy (p : Option (List (ParamKey × Val))) : Bool :=
  match p with
  | none => false
  | some m => !m.isEmpty

/-- Compiler-state inputs of `visit_update` that belong to the upstream
base class or other methods: the base-class delegation result, the 1.4
path result used by the version dispatch, the rendered table clause (with
and without hints), the bind renderer, the rendered extra-FROM clause,
the multi-table qualification flag, pre-existing returning state and the
returning placement flag, plus the running SQLAlchemy version. -/
structure UpdateCompilerCtx where
  superText : String
  update14Text : String
  updateTablesClause : String
  setupCrudHintsTableText : String
  processBind : String → Val → String
  updateFromClause : String
  render_table_with_column_in_update_from : Bool
  compilerReturning : List String
  returning_precedes_values : Bool
  saVersion : Nat

/-- Python `if cond: text += x`, the conditional-append statement pattern
of the compilers. -/
def appendIf (c : Bool) (t x : String) : String :=
  if c then t ++ x else t

/-- Python `if opt is not None: s = opt; if s: text += pre + s`, the
render-then-append-if-truthy statement pattern of the compilers. -/
def appendOptNonempty (t : String) (opt : Option String) (pre : String) : String :=
  match opt with
  | some s => if s != "" then t ++ (pre ++ s) else t
  | none => t

/-- Python `if ctes and toplevel: text = cte_clause + text`, the CTE
prefix statement of `visit_update_14`. -/
def prependCte (opt : Option String) (c : Bool) (t : String) : String :=
  match opt with
  | some cte => if c then cte ++ t else t
  | none => t

/-- The two SET-clause loops of the pre-1.4 `visit_update`: first one
assignment per crud parameter entry (column dispatched with
`include_table`), then one raw `key = bind` assignment for every string
parameter key containing a bracket. -/
def update_set_clauses (ctx : UpdateCompilerCtx) (stmt : UpdateStmt)
    (crud_params : List (Column × String)) : List String :=
  let include_table := !stmt._extra_froms.isEmpty &&
    ctx.render_table_with_column_in_update_from
  let set_clauses := crud_params.foldl (fun acc kv =>
    acc ++ [compilerDispatch kv.1 include_table ++ " = " ++ kv.2]) []
  (stmt.parameters.getD []).foldl (fun acc kv =>
    match kv.1 with
    | ParamKey.str k =>
      if k.contains '[' then acc ++ [k ++ " = " ++ ctx.processBind k kv.2] else acc
    | ParamKey.col _ => acc) set_clauses

/-- The custom (non-delegated) body of the pre-1.4 `visit_update`. -/
def visit_update_custom (ctx : UpdateCompilerCtx) (stmt : UpdateStmt)
    (crud_params : List (Column × String)) : String :=
  let text := "UPDATE "
  let text := text ++ stmt.prefixText.getD ""
  let table_text := ctx.updateTablesClause
  let table_text := if stmt.hasHints then ctx.setupCrudHintsTableText else table_text
  let text := text ++ table_text
  let text := text ++ " SET "
  let text := text ++ String.intercalate ", " (update_set_clauses ctx stmt crud_params)
  let returningL :=
    if !ctx.compilerReturning.isEmpty then ctx.compilerReturning else stmt.returningCols
  let text := appendIf (!returningL.isEmpty && ctx.returning_precedes_values)
    text (" " ++ returning_clause returningL)
  let text := appendIf (!stmt._extra_froms.isEmpty && ctx.updateFromClause != "")
    text (" " ++ ctx.updateFromClause)
  let text := appendOptNonempty text stmt.whereClause " WHERE "
  let text := appendOptNonempty text stmt.limitClause " "
  let text := appendIf (!returningL.isEmpty && !ctx.returning_precedes_values)
    text (" " ++ returning_clause returningL)
  text

/-- `CrateCompiler.visit_update`: dispatch to the 1.4 path on new
SQLAlchemy; otherwise delegate to the base compiler when the statement
has no truthy `parameters` and no `_crate_specific` marker, and compile
the custom body in every other case. -/
def visit_update (ctx : UpdateCompilerCtx) (stmt : UpdateStmt)
    (crud_params : List (Column × String)) : String :=
  if ctx.saVersion ≥ SA_1_4 then
    ctx.update14Text
  else if !(paramsTruthy stmt.parameters) && !stmt._crate_specific then
    ctx.superText
  else
    visit_update_custom ctx stmt crud_params

/-- Statement-side abbreviation: the text of the custom pre-1.4 UPDATE
before the SET assignments. -/
def update_pre_text (ctx : UpdateCompilerCtx) (stmt : UpdateStmt) : String :=
  "UPDATE " ++ stmt.prefixText.getD ""
    ++ (if stmt.hasHints then ctx.setupCrudHintsTableText else ctx.updateTablesClause)
    ++ " SET "

/-- Statement-side abbreviation: the text of the custom pre-1.4 UPDATE
after the SET assignments. -/
def update_post_text (ctx : UpdateCompilerCtx) (stmt : UpdateStmt) : String :=
  let returningL :=
    if !ctx.compilerReturning.isEmpty then ctx.compilerReturning else stmt.returningCols
  (if (!returningL.isEmpty && ctx.returning_precedes_values) = true then
      " " ++ returning_clause returningL
    else "")
  ++ ((if (!stmt._extra_froms.isEmpty && ctx.updateFromClause != "") = true then
      " " ++ ctx.updateFromClause
    else "")
  ++ ((match stmt.whereClause with
      | some t => if t != "" then " WHERE " ++ t else ""
      | none => "")
  ++ ((match stmt.limitClause with
      | some lc => if lc != "" then " " ++ lc else ""
      | none => "")
  ++ (if (!returningL.isEmpty && !ctx.returning_precedes_values) = true then
      " " ++ returning_clause returningL
    else ""))))

/-! ### UPDATE compiler (1.4 path) -/

/-- The pieces of the 1.4 update compile state and statement consumed by
`visit_update_14`, with upstream-rendered sub-clauses carried as text. -/
structure Update14Stmt where
  prefixText : Option String
  hasHints : Bool
  whereText : Option String
  limitClause : Option String
  returningCols : List String
  toplevel : Bool
  ctePrefix : Option String
  deriving DecidableEq, Repr

/-- The compile-state pieces of the 1.4 path that the SET construction
reads: the extra-FROM objects and the statement's dict parameters. -/
structure Update14CompileState where
  _extra_froms : List String
  _dict_parameters : List (ParamKey × Val)

/-- Compiler-state inputs of `visit_update_14` belonging to the upstream
base class. -/
structure Update14Ctx where
  updateTablesClause : String
  setupCrudHintsTableText : String
  processBind : String → Val → String
  updateFromClause : String
  render_table_with_column_in_update_from : Bool
  compilerReturning : List String
  returning_precedes_values : Bool

/-- The two SET-clause loops of `visit_update_14`: crud parameters are
`(column, formatted text, bind text)` triples there and the path loop
reads `compile_state._dict_parameters`. -/
def update14_set_clauses (ctx : Update14Ctx) (cs : Update14CompileState)
    (crud_params : List (Column × String × String)) : List String :=
  let include_table := !cs._extra_froms.isEmpty &&
    ctx.render_table_with_column_in_update_from
  let set_clauses := crud_params.foldl (fun acc t =>
    let key := compilerDispatch t.1 include_table
    acc ++ [key ++ " = " ++ t.2.2]) []
  cs._dict_parameters.foldl (fun acc kv =>
    match kv.1 with
    | ParamKey.str k =>
      if k.contains '[' then acc ++ [k ++ " = " ++ ctx.processBind k kv.2] else acc
    | ParamKey.col _ => acc) set_clauses

/-- `CrateCompiler.visit_update_14`: the (always custom) 1.4 UPDATE
compilation.  Crud resolution is `_get_crud_params_14` and its result is
an argument. -/
def visit_update_14 (ctx : Update14Ctx) (stmt : Update14Stmt) (cs : Update14CompileState)
    (crud_params : List (Column × String × String)) : String :=
  let text := "UPDATE "
  let text := text ++ stmt.prefixText.getD ""
  let table_text := ctx.updateTablesClause
  let table_text := if stmt.hasHints then ctx.setupCrudHintsTableText else table_text
  let text := text ++ table_text
  let text := text ++ " SET "
  let text := text ++ String.intercalate ", " (update14_set_clauses ctx cs crud_params)
  let returningL :=
    if !ctx.compilerReturning.isEmpty then ctx.compilerReturning else stmt.returningCols
  let text := appendIf (!returningL.isEmpty && ctx.returning_precedes_values)
    text (" " ++ returning_clause returningL)
  let text := appendIf (!cs._extra_froms.isEmpty && ctx.updateFromClause != "")
    text (" " ++ ctx.updateFromClause)
  let text := appendOptNonempty text stmt.whereText " WHERE "
  let text := appendOptNonempty text stmt.limitClause " "
  let text := appendIf (!returningL.isEmpty && !ctx.returning_precedes_values)
    text (" " ++ returning_clause returningL)
  let text := prependCte stmt.ctePrefix stmt.toplevel text
  text

/-- Statement-side abbreviation: the text of the 1.4 UPDATE before the
SET assignments (including a CTE prefix for a top-level statement). -/
def update14_pre_text (ctx : Update14Ctx) (stmt : Update14Stmt) : String :=
  (match stmt.ctePrefix with
    | some cte => if stmt.toplevel then cte else ""
    | none => "")
    ++ ("UPDATE " ++ stmt.prefixText.getD ""
    ++ (if stmt.hasHints then ctx.setupCrudHintsTableText else ctx.updateTablesClause)
    ++ " SET ")

/-- Statement-side abbreviation: the text of the 1.4 UPDATE after the
SET assignments. -/
def update14_post_text (ctx : Update14Ctx) (stmt : Update14Stmt)
    (cs : Update14CompileState) : String :=
  let returningL :=
    if !ctx.compilerReturning.isEmpty then ctx.compilerReturning else stmt.returningCols
  (if (!returningL.isEmpty && ctx.returning_precedes_values) = true then
      " " ++ returning_clause returningL
    else "")
  ++ ((if (!cs._extra_froms.isEmpty && ctx.updateFromClause != "") = true then
      " " ++ ctx.updateFromClause
    else "")
  ++ ((match stmt.whereText with
      | some t => if t != "" then " WHERE " ++ t else ""
      | none => "")
  ++ ((match stmt.limitClause with
      | some lc => if lc != "" then " " ++ lc else ""
      | none => "")
  ++ (if (!returningL.isEmpty && !ctx.returning_precedes_values) = true then
      " " ++ returning_clause returningL
    else ""))))

/-! ### DDL options compiler -/

/-- Python `str.upper()` (ASCII), written over the character data so that
it is kernel-computable. -/
def strUpper (s : String) : String :=
  ⟨s.data.map Char.toUpper⟩

/-- Python `str.startswith(pre)`, written over the character data. -/
def strStartsWith (s pre : String) : Bool :=
  pre.data.isPrefixOf s.data

/-- Python slicing `s[n:]`, written over the character data. -/
def strDrop (s : String) (n : Nat) : String :=
  ⟨s.data.drop n⟩

/-- The dialect-namespaced option selection of `post_create_table`: keep
keys with the `<dialect>_` prefix, strip the prefix and uppercase the
remainder (dict comprehension, first position kept on duplicates).
Option values are carried as their `str()` rendering. -/
def crate_opts (dialectName : String) (kwargs : List (String × String)) :
    List (String × String) :=
  kwargs.foldl (fun acc kv =>
    if strStartsWith kv.1 (dialectName ++ "_") then
      dictInsert acc (strUpper (strDrop kv.1 (dialectName.length + 1))) kv.2
    else acc) []

/-- The single special-clause template (`PARTITIONED_BY`), accumulated in
option order. -/
def special_options_text : List (String × String) → String
  | [] => ""
  | kv :: rest =>
    if kv.1 = "PARTITIONED_BY" then
      " PARTITIONED BY (" ++ kv.2 ++ ")" ++ special_options_text rest
    else special_options_text rest

/-- The combined `CLUSTERED` clause: the `BY (...)` and `INTO n SHARDS`
sub-parts are independently optional; absent when neither option is. -/
def clustered_option_text (opts : List (String × String)) : String :=
  let cb := (dictGet opts "CLUSTERED_BY").map (fun v => " BY (" ++ v ++ ")")
  let nos := (dictGet opts "NUMBER_OF_SHARDS").map (fun v => " INTO " ++ v ++ " SHARDS")
  if cb.isSome || nos.isSome then " CLUSTERED" ++ cb.getD "" ++ nos.getD "" else ""

/-- The generic `k = v` entries destined for the WITH block, in option
order and with the uppercased option name. -/
def table_opts_list : List (String × String) → List String
  | [] => []
  | kv :: rest =>
    if kv.1 = "PARTITIONED_BY" ∨ kv.1 = "CLUSTERED_BY" ∨ kv.1 = "NUMBER_OF_SHARDS" then
      table_opts_list rest
    else (kv.1 ++ " = " ++ kv.2) :: table_opts_list rest

/-- The trailing `WITH (...)` block with its entries sorted; absent when
no generic option is present. -/
def with_clause_text (opts : List (String × String)) : String :=
  if !(table_opts_list opts).isEmpty then
    " WITH (" ++
      String.intercalate ", " (List.insertionSort (fun a b => a ≤ b) (table_opts_list opts))
      ++ ")"
  else ""

/-- One iteration of the option loop of `post_create_table`, carried over
the state (special clause text, CLUSTERED_BY sub-part, NUMBER_OF_SHARDS
sub-part, generic WITH entries). -/
def post_create_step (st : String × Option String × Option String × List String)
    (kv : String × String) : String × Option String × Option String × List String :=
  let (special_options, cb, nos, table_opts) := st
  if kv.1 = "PARTITIONED_BY" then
    (special_options ++ " PARTITIONED BY (" ++ kv.2 ++ ")", cb, nos, table_opts)
  else if kv.1 = "CLUSTERED_BY" then
    (special_options, some (" BY (" ++ kv.2 ++ ")"), nos, table_opts)
  else if kv.1 = "NUMBER_OF_SHARDS" then
    (special_options, cb, some (" INTO " ++ kv.2 ++ " SHARDS"), table_opts)
  else
    (special_options, cb, nos, table_opts ++ [kv.1 ++ " = " ++ kv.2])

/-- `CrateDDLCompiler.post_create_table`: select and normalise the
dialect options, accumulate the special clause, fold the two clustered
sub-options into one clause, and append the sorted `WITH (...)` block.
Python's stable `sorted()` is embedded as insertion sort, which agrees
with it on the linear order of strings. -/
def post_create_table (dialectName : String) (kwargs : List (String × String)) : String :=
  let opts := crate_opts dialectName kwargs
  let st := opts.foldl post_create_step ("", none, none, [])
  let special_options := st.1
  let cb := st.2.1
  let nos := st.2.2.1
  let table_opts := st.2.2.2
  let special_options :=
    if cb.isSome || nos.isSome then
      special_options ++ " CLUSTERED" ++ cb.getD "" ++ nos.getD ""
    else special_options
  if !table_opts.isEmpty then
    special_options ++ " WITH (" ++
      String.intercalate ", " (List.insertionSort (fun a b => a ≤ b) table_opts) ++ ")"
  else special_options

/-! ### Type compiler -/

/-- The logical column types handled by `CrateTypeCompiler`, named after
its `visit_*` methods. -/
inductive CrateType where
  | string : CrateType
  | unicode : CrateType
  | TEXT : CrateType
  | DECIMAL : CrateType
  | BIGINT : CrateType
  | NUMERIC : CrateType
  | INTEGER : CrateType
  | SMALLINT : CrateType
  | datetime : CrateType
  | date : CrateType
  | ARRAY (dimensions : Option Nat) (item_type : CrateType) : CrateType
  deriving DecidableEq, Repr

/-- `CrateTypeCompiler.process`, dispatching to the `visit_*` methods.
`visit_ARRAY` raises for a declared dimension greater than one and
renders `ARRAY(<item>)` otherwise. -/
def processType : CrateType → Except String String
  | CrateType.string => Except.ok "STRING"
  | CrateType.unicode => Except.ok "STRING"
  | CrateType.TEXT => Except.ok "STRING"
  | CrateType.DECIMAL => Except.ok "DOUBLE"
  | CrateType.BIGINT => Except.ok "LONG"
  | CrateType.NUMERIC => Except.ok "LONG"
  | CrateType.INTEGER => Except.ok "INT"
  | CrateType.SMALLINT => Except.ok "SHORT"
  | CrateType.datetime => Except.ok "TIMESTAMP"
  | CrateType.date => Except.ok "TIMESTAMP"
  | CrateType.ARRAY dims item =>
    match dims with
    | some n =>
      if n > 1 then
        Except.error "CrateDB doesn't support multidimensional arrays"
      else
        (processType item).map (fun s => "ARRAY(" ++ s ++ ")")
    | none => (processType item).map (fun s => "ARRAY(" ++ s ++ ")")

/-! ### Crud-parameter resolution (1.4 path) -/

/-- A resolved crud entry of the 1.4 path:
`(column, formatted column text, bind text)`. -/
abbrev CrudTriple := Column × String × String

/-- A working-parameters value: an explicit bound value or the REQUIRED
sentinel seeded for declared-but-unset column keys. -/
inductive CrudParamVal where
  | required : CrudParamVal
  | val (v : SubVal) : CrudParamVal
  deriving DecidableEq, Repr

/-- The compile-state pieces of `_get_crud_params_14` for a single-table
statement: parameter emptiness and the single/multi parameter sources. -/
structure CrudCompileState14 where
  _no_parameters : Bool
  _has_multi_parameters : Bool
  _multi_parameters : List (List (String × SubVal))
  _dict_parameters : List (String × SubVal)
  deriving DecidableEq, Repr

/-- Modelled from the spec: upstream `_column_as_key` for plain string
keys on a single-table statement is the identity. -/
def column_as_key (k : String) : String := k

/-- Modelled from the spec (crud resolution step 4): upstream
`_get_stmt_parameter_tuples_params` folds each explicit statement
parameter into the working `parameters` mapping (a `setdefault`, so
seeded REQUIRED sentinels for the same key are kept). -/
def get_stmt_parameter_tuples_params (parameters : List (String × CrudParamVal))
    (stmt_parameter_tuples : List (String × SubVal)) : List (String × CrudParamVal) :=
  stmt_parameter_tuples.foldl (fun acc kv =>
    if (acc.map Prod.fst).contains (column_as_key kv.1) then acc
    else acc ++ [(column_as_key kv.1, CrudParamVal.val kv.2)]) parameters

/-- Modelled from the spec (crud resolution step 5, restricted to tables
without column defaults): upstream `_scan_cols` walks the table columns
and emits one crud triple for every column with a pending entry in the
working `parameters` mapping, consuming that entry; the remaining
(unconsumed) entries are returned alongside. -/
def scan_cols_step (st : List CrudTriple × List (String × CrudParamVal)) (c : Column) :
    List CrudTriple × List (String × CrudParamVal) :=
  let (values, pars) := st
  match dictGet pars c.name with
  | some _ => (values ++ [(c, format_column c, "?")],
      pars.filter (fun p => !(p.1 == c.name)))
  | none => (values, pars)

def scan_cols (table : List Column) (parameters : List (String × CrudParamVal)) :
    List CrudTriple × List (String × CrudParamVal) :=
  table.foldl scan_cols_step ([], parameters)

/-- The disabled "Unconsumed column names" validation, transcribed from
the commented-out block of `_get_crud_params_14`: working-parameter keys
that came from explicit statement parameters and were not consumed by the
column scan (nor recorded in `check_columns`). -/
def unconsumed_column_names (parameters_after : List (String × CrudParamVal))
    (stmt_parameter_tuples : List (String × SubVal)) (check_columns : List String) :
    List String :=
  (parameters_after.map Prod.fst).filter (fun k =>
    (stmt_parameter_tuples.map (fun kv => column_as_key kv.1)).contains k &&
      !(check_columns.contains k))

/-- The final values step of `_get_crud_params_14`: with no resolved
values under `for_executemany`, synthesise a `(first column, DEFAULT)`
entry enabling INSERT DEFAULT VALUES as a one-column multi-values insert. -/
def crud_values_final (table : List Column) (has_multi : Bool) (fe : Bool)
    (values : List CrudTriple) : List CrudTriple :=
  if !has_multi && values.isEmpty && fe then
    match table with
    | c :: _ => [(c, format_column c, "DEFAULT")]
    | [] => []
  else values

/-- `_get_crud_params_14` for a single-table statement without column
defaults (upstream helpers modelled from the spec; multitable UPDATE and
INSERT-from-SELECT delegate to upstream helpers outside this repository):
seed REQUIRED sentinels for declared-but-unset column keys, fold in the
explicit statement parameters, scan the table columns, and return the
values.  The upstream "Unconsumed column names" check is commented out in
the source (a "CrateDB amendment") and is therefore absent here; the
empty-values `for_executemany` fallback synthesises a
`(first column, DEFAULT)` entry. -/
def get_crud_params_14 (column_keys : Option (List String)) (table : List Column)
    (cs : CrudCompileState14) (for_executemany : Bool) :
    Except String (List CrudTriple) :=
  if column_keys.isNone && cs._no_parameters then
    Except.ok (table.map (fun c => (c, format_column c, "?")))
  else
    let stmt_parameter_tuples : Option (List (String × SubVal)) :=
      if cs._has_multi_parameters then some (cs._multi_parameters.headD [])
      else if !cs._dict_parameters.isEmpty then some cs._dict_parameters
      else none
    let parameters : List (String × CrudParamVal) :=
      match column_keys with
      | none => []
      | some cks =>
        match stmt_parameter_tuples with
        | some tuples =>
          (cks.filter (fun k => !(tuples.map Prod.fst).contains k)).map
            (fun k => (column_as_key k, CrudParamVal.required))
        | none => cks.map (fun k => (column_as_key k, CrudParamVal.required))
    let parameters :=
      match stmt_parameter_tuples with
      | some tuples => get_stmt_parameter_tuples_params parameters tuples
      | none => parameters
    let scanned := scan_cols table parameters
    let values := scanned.1
    Except.ok (crud_values_final table cs._has_multi_parameters for_executemany values)

/-! ### Association-list (Python dict) lemmas -/

theorem dictInsert_of_not_mem {κ α : Type} [DecidableEq κ] {m : List (κ × α)} {k : κ}
    (v : α) (h : k ∉ m.map Prod.fst) : dictInsert m k v = m ++ [(k, v)] := by
  simp [dictInsert, h]

theorem keys_dictInsert {κ α : Type} [DecidableEq κ] (m : List (κ × α)) (k : κ) (v : α) :
    (dictInsert m k v).map Prod.fst
      = if k ∈ m.map Prod.fst then m.map Prod.fst else m.map Prod.fst ++ [k] := by
  by_cases h : k ∈ m.map Prod.fst
  · simp only [dictInsert, if_pos h, List.map_map]
    refine List.map_congr_left ?_
    intro p _
    by_cases hp : p.1 = k
    · simp [hp]
    · simp [hp]
  · simp [dictInsert, h]

theorem keysNodup_dictInsert {κ α : Type} [DecidableEq κ] {m : List (κ × α)}
    (k : κ) (v : α) (h : keysNodup m) : keysNodup (dictInsert m k v) := by
  unfold keysNodup at *
  rw [keys_dictInsert]
  by_cases hk : k ∈ m.map Prod.fst
  · simpa [hk] using h
  · simp [hk, List.nodup_append, h]

theorem dictGet_eq_none_of_not_mem {κ α : Type} [DecidableEq κ] {m : List (κ × α)} {k : κ}
    (h : k ∉ m.map Prod.fst) : dictGet m k = none := by
  induction m with
  | nil => rfl
  | cons p rest ih =>
    simp only [List.map_cons, List.mem_cons] at h
    push_neg at h
    simp [dictGet, Ne.symm h.1, ih h.2]

theorem mem_keys_of_dictGet_eq_some {κ α : Type} [DecidableEq κ] {m : List (κ × α)}
    {k : κ} {v : α} (h : dictGet m k = some v) : k ∈ m.map Prod.fst := by
  by_contra hmem
  rw [dictGet_eq_none_of_not_mem hmem] at h
  exact Option.noConfusion h

theorem dictGet_append_of_not_mem {κ α : Type} [DecidableEq κ] {m : List (κ × α)} {k : κ}
    (l : List (κ × α)) (h : k ∉ m.map Prod.fst) : dictGet (m ++ l) k = dictGet l k := by
  induction m with
  | nil => rfl
  | cons p rest ih =>
    simp only [List.map_cons, List.mem_cons] at h
    push_neg at h
    simp [dictGet, Ne.symm h.1, ih h.2]

theorem dictGet_dictInsert_self {κ α : Type} [DecidableEq κ] (m : List (κ × α))
    (k : κ) (v : α) : dictGet (dictInsert m k v) k = some v := by
  by_cases h : k ∈ m.map Prod.fst
  · simp only [dictInsert, if_pos h]
    induction m with
    | nil => simp at h
    | cons p rest ih =>
      by_cases hp : p.1 = k
      · simp [dictGet, hp]
      · simp only [List.map_cons, List.mem_cons] at h
        rcases h with h | h
        · exact absurd h.symm hp
        · simp [dictGet, hp, ih h]
  · rw [dictInsert_of_not_mem v h, dictGet_append_of_not_mem _ h]
    simp [dictGet]

theorem dictGet_append_singleton_ne {κ α : Type} [DecidableEq κ] (m : List (κ × α))
    {k' k : κ} (v : α) (h : k' ≠ k) : dictGet (m ++ [(k', v)]) k = dictGet m k := by
  induction m with
  | nil => simp [dictGet, h]
  | cons p rest ih => by_cases hp : p.1 = k <;> simp [dictGet, hp, ih]

theorem dictGet_dictInsert_ne {κ α : Type} [DecidableEq κ] (m : List (κ × α))
    {k' k : κ} (v : α) (h : k' ≠ k) : dictGet (dictInsert m k' v) k = dictGet m k := by
  by_cases hm : k' ∈ m.map Prod.fst
  · simp only [dictInsert, if_pos hm]
    clear hm
    induction m with
    | nil => rfl
    | cons p rest ih =>
      by_cases hp : p.1 = k'
      · simp [dictGet, hp, h, Ne.symm h, ih]
      · simp [dictGet, hp, ih]
  · rw [dictInsert_of_not_mem v hm]
    exact dictGet_append_singleton_ne m v h

theorem countKey_eq_zero_of_not_mem {κ α : Type} [DecidableEq κ] {m : List (κ × α)}
    {k : κ} (h : k ∉ m.map Prod.fst) : countKey m k = 0 := by
  induction m with
  | nil => rfl
  | cons p rest ih =>
    simp only [List.map_cons, List.mem_cons] at h
    push_neg at h
    have hp : ¬ p.1 = k := fun hh => h.1 hh.symm
    simp [countKey, hp, ih h.2]

theorem countKey_eq_one_of_mem {κ α : Type} [DecidableEq κ] {m : List (κ × α)} {k : κ}
    (hnd : keysNodup m) (hmem : k ∈ m.map Prod.fst) : countKey m k = 1 := by
  induction m with
  | nil => simp at hmem
  | cons p rest ih =>
    unfold keysNodup at *
    simp only [List.map_cons, List.nodup_cons] at hnd
    simp only [List.map_cons, List.mem_cons] at hmem
    by_cases hp : p.1 = k
    · have : k ∉ rest.map Prod.fst := hp ▸ hnd.1
      simp [countKey, hp, countKey_eq_zero_of_not_mem this]
    · rcases hmem with hmem | hmem
      · exact absurd hmem.symm hp
      · simp [countKey, hp, ih hnd.2 hmem]

/-! ### Fold lemmas for the rewrite loops -/

theorem keysNodup_foldl {σ κ α : Type} (l : List σ)
    (g : List (κ × α) → σ → List (κ × α))
    (hg : ∀ m x, keysNodup m → keysNodup (g m x)) :
    ∀ acc : List (κ × α), keysNodup acc → keysNodup (l.foldl g acc) := by
  induction l with
  | nil => intro acc h; exact h
  | cons x xs ih => intro acc h; exact ih _ (hg acc x h)

theorem foldl_cond_dictInsert {σ κ β : Type} [DecidableEq κ]
    (l : List σ) (p : σ → Prop) [DecidablePred p] (key : σ → κ) (val : σ → β) :
    ∀ init : List (κ × β),
      (∀ x ∈ l, p x → key x ∉ init.map Prod.fst) →
      (l.filterMap (fun x => if p x then some (key x) else none)).Nodup →
      l.foldl (fun acc x => if p x then dictInsert acc (key x) (val x) else acc) init
        = init ++ l.filterMap (fun x => if p x then some (key x, val x) else none) := by
  induction l with
  | nil => intro init _ _; simp
  | cons x xs ih =>
    intro init hfresh hnodup
    by_cases hx : p x
    · simp only [List.filterMap_cons, if_pos hx] at hnodup ⊢
      simp only [List.nodup_cons] at hnodup
      rw [List.foldl_cons, if_pos hx,
        dictInsert_of_not_mem (val x) (hfresh x (List.mem_cons_self x xs) hx),
        ih (init ++ [(key x, val x)]) ?_ hnodup.2]
      · simp
      · intro y hy hpy
        simp only [List.map_append, List.mem_append, List.map_cons, List.map_nil,
          List.mem_singleton, not_or]
        refine ⟨hfresh y (List.mem_cons_of_mem x hy) hpy, ?_⟩
        intro hkey
        apply hnodup.1
        rw [← hkey]
        exact List.mem_filterMap.2 ⟨y, hy, by simp [hpy]⟩
    · simp only [List.filterMap_cons, if_neg hx] at hnodup ⊢
      rw [List.foldl_cons, if_neg hx, ih init (fun y hy => hfresh y (List.mem_cons_of_mem x hy)) hnodup]

theorem foldl_dictInsert_append {σ κ β : Type} [DecidableEq κ]
    (l : List σ) (key : σ → κ) (val : σ → β) :
    ∀ init : List (κ × β),
      (∀ x ∈ l, key x ∉ init.map Prod.fst) →
      (l.map key).Nodup →
      l.foldl (fun acc x => dictInsert acc (key x) (val x)) init
        = init ++ l.map (fun x => (key x, val x)) := by
  induction l with
  | nil => intro init _ _; simp
  | cons x xs ih =>
    intro init hfresh hnodup
    simp only [List.map_cons, List.nodup_cons] at hnodup
    rw [List.foldl_cons, dictInsert_of_not_mem (val x) (hfresh x (List.mem_cons_self x xs)),
      ih (init ++ [(key x, val x)]) ?_ hnodup.2]
    · simp
    · intro y hy
      simp only [List.map_append, List.mem_append, List.map_cons, List.map_nil,
        List.mem_singleton, not_or]
      refine ⟨hfresh y (List.mem_cons_of_mem x hy), ?_⟩
      intro hkey
      exact hnodup.1 (hkey ▸ List.mem_map_of_mem key hy)

/-! ### Path-key lemmas -/

theorem pathKey_inj {col a b : String} (h : pathKey col a = pathKey col b) : a = b := by
  unfold pathKey at h
  have hd := congrArg String.data h
  simp only [String.data_append] at hd
  have h1 := List.append_cancel_right hd
  have h2 := List.append_cancel_left h1
  exact String.ext h2

theorem pathKey_injective (col : String) : Function.Injective (pathKey col) :=
  fun _ _ h => pathKey_inj h

theorem pathKey_ne_base (col a : String) : pathKey col a ≠ col := by
  intro h
  have hl := congrArg String.length h
  have h2 : ("['" : String).length = 2 := rfl
  have h3 : ("']" : String).length = 2 := rfl
  simp only [pathKey, String.length_append, h2, h3] at hl
  omega

/-! ### filterMap and filter bookkeeping -/

theorem filterMap_if_eq_map_filter {α β : Type} (p : α → Prop) [DecidablePred p]
    (f : α → β) (l : List α) :
    l.filterMap (fun x => if p x then some (f x) else none)
      = (l.filter (fun x => decide (p x))).map f := by
  induction l with
  | nil => rfl
  | cons x xs ih => by_cases hx : p x <;> simp [hx, ih]

theorem length_filter_of_nodup_sub (items : List (String × SubVal)) (c : List String)
    (hni : (items.map Prod.fst).Nodup) (hnc : c.Nodup)
    (hsub : ∀ k ∈ c, k ∈ items.map Prod.fst) :
    (items.filter (fun sv => decide (sv.1 ∈ c))).length = c.length := by
  have hmapfil : (items.map Prod.fst).filter (fun k => decide (k ∈ c))
      = (items.filter (fun sv => decide (sv.1 ∈ c))).map Prod.fst := by
    exact List.filter_map Prod.fst items
  have hperm : List.Perm ((items.map Prod.fst).filter (fun k => decide (k ∈ c))) c := by
    refine (List.perm_ext_iff_of_nodup (hni.filter _) hnc).2 ?_
    intro a
    simp only [List.mem_filter, decide_eq_true_eq]
    constructor
    · rintro ⟨_, ha⟩; exact ha
    · intro ha; exact ⟨hsub a ha, ha⟩
  have := hperm.length_eq
  rw [hmapfil] at this
  simpa using this

/-! ### Rewrite-step lemmas -/

theorem anyTruthy_eq_false_iff (ks : List String) :
    anyTruthy ks = false ↔ ∀ s ∈ ks, s = "" := by
  simp [anyTruthy, List.any_eq_false]

theorem rewriteStep_passthrough (m : ParamMap) (k : String) (v : Val)
    (h : passThrough v) : rewriteStep m (k, v) = dictInsert m k v := by
  cases v with
  | scalar s => rfl
  | doc d =>
    rcases h with ⟨h1, h2⟩
    simp [rewriteStep, h1, h2]

theorem rewriteStep_doc_triggered (m : ParamMap) (k : String) (d : MutableDict)
    (htrig : (!(anyTruthy d._changed_keys) && !(anyTruthy d._deleted_keys)) = false) :
    rewriteStep m (k, Val.doc d)
      = d._deleted_keys.foldl (fun acc sk =>
          dictInsert acc (pathKey k sk) (Val.scalar SubVal.snull))
          (d.items.foldl (fun acc sv =>
            if sv.1 ∈ d._changed_keys then
              dictInsert acc (pathKey k sv.1) (Val.scalar sv.2)
            else acc) m) := by
  simp [rewriteStep, htrig]

theorem trigger_of_nonempty_disjoint (c dl : List String) (hc : c ≠ []) (hd : dl ≠ [])
    (hdisj : ∀ k ∈ c, k ∉ dl) :
    (!(anyTruthy c) && !(anyTruthy dl)) = false := by
  cases hch : anyTruthy c with
  | true => simp [hch]
  | false =>
    cases hdl : anyTruthy dl with
    | true => simp [hdl]
    | false =>
      exfalso
      have hallc : ∀ s ∈ c, s = "" := (anyTruthy_eq_false_iff c).1 hch
      have halld : ∀ s ∈ dl, s = "" := (anyTruthy_eq_false_iff dl).1 hdl
      obtain ⟨c0, hc0⟩ := List.exists_mem_of_ne_nil c hc
      obtain ⟨d0, hd0⟩ := List.exists_mem_of_ne_nil dl hd
      have hc0e : c0 = "" := hallc c0 hc0
      have hd0e : d0 = "" := halld d0 hd0
      apply hdisj c0 hc0
      rw [hc0e, ← hd0e]
      exact hd0

theorem foldl_rewriteStep_append (ps : ParamMap) :
    ∀ acc : ParamMap,
      (∀ kv ∈ ps, passThrough kv.2) →
      (∀ kv ∈ ps, kv.1 ∉ acc.map Prod.fst) →
      keysNodup ps →
      ps.foldl rewriteStep acc = acc ++ ps := by
  induction ps with
  | nil => intro acc _ _ _; simp
  | cons kv rest ih =>
    intro acc hpass hfresh hnodup
    unfold keysNodup at hnodup
    simp only [List.map_cons, List.nodup_cons] at hnodup
    have h1 : rewriteStep acc kv = acc ++ [kv] := by
      obtain ⟨k, v⟩ := kv
      rw [rewriteStep_passthrough acc k v (hpass (k, v) (List.mem_cons_self _ _))]
      exact dictInsert_of_not_mem v (hfresh (k, v) (List.mem_cons_self _ _))
    rw [List.foldl_cons, h1,
      ih (acc ++ [kv]) (fun x hx => hpass x (List.mem_cons_of_mem kv hx)) ?_ hnodup.2]
    · simp
    · intro x hx
      simp only [List.map_append, List.mem_append, List.map_cons, List.map_nil,
        List.mem_singleton, not_or]
      refine ⟨hfresh x (List.mem_cons_of_mem kv hx), ?_⟩
      intro he
      exact hnodup.1 (he ▸ List.mem_map_of_mem Prod.fst hx)

/-- Claim C1: for an UPDATE parameter mapping binding a document column to
a tracked document with disjoint non-empty changed and deleted key sets,
the rewrite drops the whole-document entry and produces exactly one
`"<column>['<k>']"` entry per changed key (bound to the document's current
value) and one per deleted key (bound to null), and nothing else. -/
theorem C1_rewrite_partial_update (col : String) (d : MutableDict)
    (hni : (d.items.map Prod.fst).Nodup)
    (hnc : d._changed_keys.Nodup) (hnd : d._deleted_keys.Nodup)
    (hsub : ∀ k ∈ d._changed_keys, k ∈ d.items.map Prod.fst)
    (hdisj : ∀ k ∈ d._changed_keys, k ∉ d._deleted_keys)
    (hcne : d._changed_keys ≠ []) (hdne : d._deleted_keys ≠ []) :
    rewriteParams [(col, Val.doc d)]
        = (d.items.filter (fun sv => decide (sv.1 ∈ d._changed_keys))).map
            (fun sv => (pathKey col sv.1, Val.scalar sv.2))
          ++ d._deleted_keys.map (fun k => (pathKey col k, Val.scalar SubVal.snull))
      ∧ (rewriteParams [(col, Val.doc d)]).length
          = d._changed_keys.length + d._deleted_keys.length
      ∧ ∀ v : Val, (col, v) ∉ rewriteParams [(col, Val.doc d)] := by
  have htrig := trigger_of_nonempty_disjoint d._changed_keys d._deleted_keys hcne hdne hdisj
  have hstep : rewriteParams [(col, Val.doc d)] = rewriteStep [] (col, Val.doc d) := rfl
  have hkeysnd : (d.items.filterMap (fun sv =>
      if sv.1 ∈ d._changed_keys then some (pathKey col sv.1) else none)).Nodup := by
    rw [filterMap_if_eq_map_filter]
    have hmm : (d.items.filter (fun sv => decide (sv.1 ∈ d._changed_keys))).map
          (fun sv => pathKey col sv.1)
        = ((d.items.filter (fun sv => decide (sv.1 ∈ d._changed_keys))).map
            Prod.fst).map (pathKey col) := by
      rw [List.map_map]
      rfl
    rw [hmm]
    refine List.Nodup.map (pathKey_injective col) ?_
    exact hni.sublist ((List.filter_sublist _).map Prod.fst)
  have hinner := foldl_cond_dictInsert d.items (fun sv => sv.1 ∈ d._changed_keys)
      (fun sv => pathKey col sv.1) (fun sv => Val.scalar sv.2) []
      (by intro x _ _; simp) hkeysnd
  have hchangedkeys : (d.items.filterMap (fun sv =>
        if sv.1 ∈ d._changed_keys then some (pathKey col sv.1, Val.scalar sv.2) else none)).map
        Prod.fst
      = (d.items.filter (fun sv => decide (sv.1 ∈ d._changed_keys))).map
          (fun sv => pathKey col sv.1) := by
    rw [filterMap_if_eq_map_filter, List.map_map]
    rfl
  have hfreshD : ∀ x ∈ d._deleted_keys,
      pathKey col x ∉ (d.items.filterMap (fun sv =>
        if sv.1 ∈ d._changed_keys then some (pathKey col sv.1, Val.scalar sv.2) else none)).map
        Prod.fst := by
    intro x hx hmem
    rw [hchangedkeys] at hmem
    obtain ⟨sv, hsv, heq⟩ := List.mem_map.1 hmem
    have hx2 : sv.1 = x := pathKey_inj heq
    have hsvc : sv.1 ∈ d._changed_keys := by
      have := List.mem_filter.1 hsv
      simpa using this.2
    exact hdisj x (hx2 ▸ hsvc) hx
  have houter := foldl_dictInsert_append d._deleted_keys (fun sk => pathKey col sk)
      (fun _ => Val.scalar SubVal.snull)
      (d.items.filterMap (fun sv =>
        if sv.1 ∈ d._changed_keys then some (pathKey col sv.1, Val.scalar sv.2) else none))
      hfreshD (hnd.map (pathKey_injective col))
  have hmain : rewriteParams [(col, Val.doc d)]
      = (d.items.filter (fun sv => decide (sv.1 ∈ d._changed_keys))).map
          (fun sv => (pathKey col sv.1, Val.scalar sv.2))
        ++ d._deleted_keys.map (fun k => (pathKey col k, Val.scalar SubVal.snull)) := by
    rw [hstep, rewriteStep_doc_triggered [] col d htrig, hinner]
    simp only [List.nil_append]
    rw [houter]
    rw [filterMap_if_eq_map_filter (fun sv => sv.1 ∈ d._changed_keys)
      (fun sv => (pathKey col sv.1, Val.scalar sv.2)) d.items]
  refine ⟨hmain, ?_, ?_⟩
  · rw [hmain]
    simp only [List.length_append, List.length_map]
    rw [length_filter_of_nodup_sub d.items d._changed_keys hni hnc hsub]
  · intro v hv
    rw [hmain] at hv
    rcases List.mem_append.1 hv with hv | hv
    · obtain ⟨sv, _, heq⟩ := List.mem_map.1 hv
      have : pathKey col sv.1 = col := congrArg Prod.fst heq
      exact pathKey_ne_base col sv.1 this
    · obtain ⟨k, _, heq⟩ := List.mem_map.1 hv
      have : pathKey col k = col := congrArg Prod.fst heq
      exact pathKey_ne_base col k this

theorem keysNodup_rewriteStep (m : ParamMap) (kv : String × Val) (h : keysNodup m) :
    keysNodup (rewriteStep m kv) := by
  obtain ⟨k, v⟩ := kv
  cases v with
  | scalar s => exact keysNodup_dictInsert _ _ h
  | doc d =>
    by_cases hc : (!(anyTruthy d._changed_keys) && !(anyTruthy d._deleted_keys)) = true
    · have : rewriteStep m (k, Val.doc d) = dictInsert m k (Val.doc d) := by
        simp [rewriteStep, hc]
      rw [this]
      exact keysNodup_dictInsert _ _ h
    · have hc' : (!(anyTruthy d._changed_keys) && !(anyTruthy d._deleted_keys)) = false := by
        simpa using hc
      rw [rewriteStep_doc_triggered m k d hc']
      refine keysNodup_foldl _ _ (fun m' x hm' => keysNodup_dictInsert _ _ hm') _ ?_
      refine keysNodup_foldl _ _ ?_ _ h
      intro m' x hm'
      by_cases hx : x.1 ∈ d._changed_keys
      · simpa [hx] using keysNodup_dictInsert (pathKey k x.1) (Val.scalar x.2) hm'
      · simpa [hx] using hm'

theorem keysNodup_rewriteParams (ps : ParamMap) : keysNodup (rewriteParams ps) :=
  keysNodup_foldl ps rewriteStep (fun m x hm => keysNodup_rewriteStep m x hm) []
    (by simp [keysNodup])

theorem dictGet_foldl_const_not_mem {σ κ β : Type} [DecidableEq κ]
    (ks : List σ) (f : σ → κ) (v : β) (k : κ) :
    ∀ acc : List (κ × β), (∀ x ∈ ks, f x ≠ k) →
      dictGet (ks.foldl (fun a x => dictInsert a (f x) v) acc) k = dictGet acc k := by
  induction ks with
  | nil => intro acc _; rfl
  | cons x xs ih =>
    intro acc h
    rw [List.foldl_cons, ih _ (fun y hy => h y (List.mem_cons_of_mem x hy)),
      dictGet_dictInsert_ne _ _ (h x (List.mem_cons_self x xs))]

theorem dictGet_foldl_const_mem {σ κ β : Type} [DecidableEq κ]
    (ks : List σ) (f : σ → κ) (v : β) (k : κ) :
    ∀ acc : List (κ × β), (∃ x ∈ ks, f x = k) →
      dictGet (ks.foldl (fun a x => dictInsert a (f x) v) acc) k = some v := by
  induction ks with
  | nil =>
    rintro acc ⟨x, hx, _⟩
    simp at hx
  | cons x xs ih =>
    intro acc hex
    by_cases hxs : ∃ y ∈ xs, f y = k
    · rw [List.foldl_cons]
      exact ih _ hxs
    · obtain ⟨y, hy, hyk⟩ := hex
      have hxk : f x = k := by
        rcases List.mem_cons.1 hy with h | h
        · exact h ▸ hyk
        · exact absurd ⟨y, h, hyk⟩ hxs
      push_neg at hxs
      rw [List.foldl_cons, dictGet_foldl_const_not_mem xs f v k _ hxs, ← hxk]
      exact dictGet_dictInsert_self acc (f x) v

/-- Claim C1 witness: tracked document with items a=1, c=3, changed key
set a and deleted key set b rewrites to exactly the two path entries. -/
theorem C1_rewrite_partial_update_witness :
    rewriteParams
        [("obj", Val.doc ⟨[("a", SubVal.sint 1), ("c", SubVal.sint 3)], ["a"], ["b"]⟩)]
      = [(pathKey "obj" "a", Val.scalar (SubVal.sint 1)),
         (pathKey "obj" "b", Val.scalar SubVal.snull)] := by
  rw [(C1_rewrite_partial_update "obj"
      ⟨[("a", SubVal.sint 1), ("c", SubVal.sint 3)], ["a"], ["b"]⟩
      (by decide) (by decide) (by decide) (by decide) (by decide) (by decide)
      (by decide)).1]
  decide

/-- Claim C2 counterexample: even with a single plain scalar parameter
(no tracked document at all), `rewrite_update` does not return the same
statement: the returned statement has `values(...)` applied and the
`_crate_specific` marker set. -/
theorem C2_counterexample :
    (rewrite_update ⟨none, false, [], none, false, none, none, []⟩
        [[[("x", Val.scalar (SubVal.sint 1))]]] []).1
      ≠ ⟨none, false, [], none, false, none, none, []⟩ := by
  decide

/-- Claim C2 (amended): when every value of every (non-empty list of)
parameter mapping passes through unrewritten, the parameter mappings are
returned unchanged, but the statement itself is returned with the first
mapping applied via `values(...)` and with the `_crate_specific` marker
set — it is not the same statement. -/
theorem C2_no_op_rewrite_amended (s : UpdateStmt) (mp0 : List ParamMap) (p : ParamMap)
    (hne : mp0 ≠ [])
    (hpass : ∀ m ∈ mp0, ∀ kv ∈ m, passThrough kv.2)
    (hnd : ∀ m ∈ mp0, keysNodup m) :
    rewrite_update s [mp0] p
      = ({ s.values (mp0.headD []) with _crate_specific := true }, [mp0], p) := by
  have hmap : mp0.map rewriteParams = mp0 := by
    have : ∀ m ∈ mp0, rewriteParams m = m := by
      intro m hm
      have := foldl_rewriteStep_append m [] (hpass m hm) (by simp) (hnd m hm)
      simpa [rewriteParams] using this
    calc mp0.map rewriteParams = mp0.map id := List.map_congr_left this
    _ = mp0 := List.map_id mp0
  have hlen : ¬ (mp0.length = 0) := fun h0 => hne (List.length_eq_zero.1 h0)
  simp only [rewrite_update, List.headD_cons, hmap]
  rw [if_neg hlen]

/-- Claim C2 witness for the amended statement. -/
theorem C2_no_op_rewrite_amended_witness :
    rewrite_update ⟨none, false, [], none, false, none, none, []⟩
        [[[("x", Val.scalar (SubVal.sint 1))]]] []
      = ({ UpdateStmt.values ⟨none, false, [], none, false, none, none, []⟩
            [("x", Val.scalar (SubVal.sint 1))] with _crate_specific := true },
         [[[("x", Val.scalar (SubVal.sint 1))]]], []) :=
  C2_no_op_rewrite_amended ⟨none, false, [], none, false, none, none, []⟩
    [[("x", Val.scalar (SubVal.sint 1))]] []
    (by decide) (by decide) (by decide)

/-- Claim C10 counterexample: the key present in both the changed and the
deleted set may be the empty string, which is not truthy; then the
Python `any()` guards treat the document as unchanged, the whole-document
entry is kept, and no path entry at all is produced.  The claim as stated
fails on this input. -/
theorem C10_counterexample :
    rewriteParams [("obj", Val.doc ⟨[("", SubVal.sint 1)], [""], [""]⟩)]
        = [("obj", Val.doc ⟨[("", SubVal.sint 1)], [""], [""]⟩)]
      ∧ dictGet (rewriteParams [("obj", Val.doc ⟨[("", SubVal.sint 1)], [""], [""]⟩)])
          (pathKey "obj" "") = none := by
  decide

/-- Claim C10 (amended): for a key `k` present in the document and in both
the changed-key and deleted-key sets, provided `k` is a non-empty string
(so the rewrite triggers), the rewritten mapping holds exactly one entry
under the path key, and its value is null — the deleted keys are emitted
after the changed keys into the same dict, so the null binding overwrites
the changed-value binding. -/
theorem C10_changed_and_deleted_overwrite (col k : String) (v : SubVal) (d : MutableDict)
    (hk : (k, v) ∈ d.items) (hc : k ∈ d._changed_keys) (hd : k ∈ d._deleted_keys)
    (hkne : k ≠ "") :
    dictGet (rewriteParams [(col, Val.doc d)]) (pathKey col k)
        = some (Val.scalar SubVal.snull)
      ∧ countKey (rewriteParams [(col, Val.doc d)]) (pathKey col k) = 1 := by
  have htrue : anyTruthy d._deleted_keys = true := by
    simp only [anyTruthy, List.any_eq_true]
    exact ⟨k, hd, by simpa using hkne⟩
  have htrig : (!(anyTruthy d._changed_keys) && !(anyTruthy d._deleted_keys)) = false := by
    simp [htrue]
  have hstep : rewriteParams [(col, Val.doc d)] = rewriteStep [] (col, Val.doc d) := rfl
  have hget : dictGet (rewriteParams [(col, Val.doc d)]) (pathKey col k)
      = some (Val.scalar SubVal.snull) := by
    rw [hstep, rewriteStep_doc_triggered [] col d htrig]
    exact dictGet_foldl_const_mem d._deleted_keys (fun sk => pathKey col sk)
      (Val.scalar SubVal.snull) (pathKey col k) _ ⟨k, hd, rfl⟩
  exact ⟨hget, countKey_eq_one_of_mem (keysNodup_rewriteParams _)
    (mem_keys_of_dictGet_eq_some hget)⟩

/-- Claim C10 witness for the amended statement. -/
theorem C10_changed_and_deleted_overwrite_witness :
    dictGet (rewriteParams [("obj", Val.doc ⟨[("a", SubVal.sint 7)], ["a"], ["a"]⟩)])
        (pathKey "obj" "a") = some (Val.scalar SubVal.snull)
      ∧ countKey (rewriteParams [("obj", Val.doc ⟨[("a", SubVal.sint 7)], ["a"], ["a"]⟩)])
          (pathKey "obj" "a") = 1 :=
  C10_changed_and_deleted_overwrite "obj" "a" (SubVal.sint 7)
    ⟨[("a", SubVal.sint 7)], ["a"], ["a"]⟩
    (by decide) (by decide) (by decide) (by decide)

/-! ### Type compiler: claim C8 -/

/-- Claim C8: an array type whose declared dimensions value is greater
than one raises an unsupported-feature error and produces no output text;
with dimensions absent or equal to one it renders exactly
`ARRAY(<item-type>)`. -/
theorem C8_array_dimension_gate (dims : Option Nat) (item : CrateType) (s : String)
    (hs : processType item = Except.ok s) :
    (∀ n, dims = some n → n > 1 →
      processType (CrateType.ARRAY dims item)
        = Except.error "CrateDB doesn't support multidimensional arrays")
    ∧ ((dims = none ∨ dims = some 1) →
      processType (CrateType.ARRAY dims item) = Except.ok ("ARRAY(" ++ s ++ ")")) := by
  constructor
  · intro n hn h1
    subst hn
    simp [processType, h1]
  · rintro (h | h) <;> subst h <;> simp [processType, hs, Except.map]

/-- Claim C8 witness: a two-dimensional array errors; `ARRAY(INT)` for a
one-dimensional integer array. -/
theorem C8_array_dimension_gate_witness :
    processType (CrateType.ARRAY (some 2) (CrateType.ARRAY (some 1) CrateType.INTEGER))
        = Except.error "CrateDB doesn't support multidimensional arrays"
    ∧ processType (CrateType.ARRAY (some 1) CrateType.INTEGER) = Except.ok "ARRAY(INT)" := by
  constructor
  · exact (C8_array_dimension_gate (some 2) (CrateType.ARRAY (some 1) CrateType.INTEGER)
      "ARRAY(INT)" rfl).1 2 rfl (by decide)
  · exact (C8_array_dimension_gate (some 1) CrateType.INTEGER "INT" rfl).2 (Or.inr rfl)

/-! ### UPDATE dispatch and rewrite marker: claim C5 -/

/-- Claim C5 counterexample: with an empty parameter-set list,
`rewrite_update` returns the original statement unchanged and unmarked,
so it does not always attach the `_crate_specific` marker to the
statement it returns. -/
theorem C5_counterexample :
    (rewrite_update ⟨none, false, [], none, false, none, none, []⟩ [[]] []).1
        = ⟨none, false, [], none, false, none, none, []⟩
    ∧ ((rewrite_update ⟨none, false, [], none, false, none, none, []⟩ [[]] []).1)._crate_specific
        = false := by
  decide

/-- Claim C5 (amended): `rewrite_update` attaches the `_crate_specific`
marker to the statement it returns whenever the incoming parameter-set
list is non-empty (an empty list is returned untouched), and the pre-1.4
`visit_update` takes the custom compilation path iff the statement has a
truthy `parameters` mapping or carries the marker; with neither it
delegates unchanged to the base compiler's UPDATE rendering. -/
theorem C5_marker_and_dispatch_amended (s : UpdateStmt) (mp0 : List ParamMap) (p : ParamMap)
    (ctx : UpdateCompilerCtx) (stmt : UpdateStmt) (crud : List (Column × String))
    (hne : mp0 ≠ []) (hsa : ctx.saVersion < SA_1_4) :
    ((rewrite_update s [mp0] p).1)._crate_specific = true
    ∧ visit_update ctx stmt crud
        = (if paramsTruthy stmt.parameters || stmt._crate_specific then
            visit_update_custom ctx stmt crud
          else ctx.superText) := by
  constructor
  · have hlen : ¬ (mp0.length = 0) := fun h0 => hne (List.length_eq_zero.1 h0)
    simp [rewrite_update, hlen]
  · have hn : ¬ (ctx.saVersion ≥ SA_1_4) := Nat.not_le.2 hsa
    rw [visit_update, if_neg hn]
    by_cases h1 : paramsTruthy stmt.parameters = true <;>
      by_cases h2 : stmt._crate_specific = true <;>
      simp [h1, h2]

/-- Claim C5 witness for the amended statement: the rewrite of one plain
mapping is marked, and a statement with no parameters and no marker is
delegated to the base compiler. -/
theorem C5_marker_and_dispatch_amended_witness :
    ((rewrite_update ⟨none, false, [], none, false, none, none, []⟩
        [[[("x", Val.scalar (SubVal.sint 1))]]] []).1)._crate_specific = true
    ∧ visit_update
        ⟨"SUPERTEXT", "U14", "t", "h", (fun _ _ => "?"), "", false, [], false, 10⟩
        ⟨none, false, [], none, false, none, none, []⟩ []
      = "SUPERTEXT" := by
  have h := C5_marker_and_dispatch_amended
    ⟨none, false, [], none, false, none, none, []⟩
    [[("x", Val.scalar (SubVal.sint 1))]] []
    ⟨"SUPERTEXT", "U14", "t", "h", (fun _ _ => "?"), "", false, [], false, 10⟩
    ⟨none, false, [], none, false, none, none, []⟩ []
    (by decide) (by decide)
  refine ⟨h.1, ?_⟩
  rw [h.2]
  rfl

/-! ### INSERT compiler version gate: claim C4 -/

/-- Claim C4: at or above server version (1, 0, 1), `visit_insert`
delegates verbatim to the base compiler (so this code adds no
parentheses); below the threshold (legacy SQLAlchemy), an
INSERT-from-SELECT renders the SELECT body wrapped in parentheses. -/
theorem C4_insert_select_version_gate (dialect : Dialect) (ctx : InsertCompilerCtx)
    (stmt : InsertStmt) (crud : CrudParams) (ps : List (Column × String)) (sel : String) :
    (verGE dialect.server_version_info INSERT_SELECT_WITHOUT_PARENTHESES_MIN_VERSION = true →
      visit_insert dialect ctx stmt crud = Except.ok ctx.superText)
    ∧ (verGE dialect.server_version_info INSERT_SELECT_WITHOUT_PARENTHESES_MIN_VERSION = false →
      ctx.saVersion < SA_1_4 →
      stmt.prefixText = none → stmt.hints = [] → ctx.compilerReturning = [] →
      stmt.returningCols = [] → stmt.selectText = some sel →
      crud = CrudParams.single ps → ps ≠ [] →
      visit_insert dialect ctx stmt crud
        = Except.ok ("INSERT INTO " ++ stmt.table ++ " ("
            ++ String.intercalate ", " (ps.map (fun c => format_column c.1))
            ++ ") (" ++ sel ++ ")")) := by
  constructor
  · intro hver
    simp [visit_insert, hver]
  · intro hver hsa hpre hh hr1 hr2 hsel hcrud hps
    subst hcrud
    obtain ⟨tbl, spre, shints, srets, ssel⟩ := stmt
    simp only at hpre hh hr2 hsel
    subst hpre hh hr2 hsel
    have hsa' : ¬ (ctx.saVersion ≥ SA_1_4) := Nat.not_le.2 hsa
    have hpe : ps.isEmpty = false := by
      cases ps with
      | nil => exact absurd rfl hps
      | cons a l => rfl
    have hlit : ("INSERT INTO " : String) = "INSERT " ++ "INTO " := rfl
    simp only [visit_insert, hver, Bool.false_eq_true, if_false, if_neg hsa',
      crudIsEmpty, hpe, hasMultiParameters, Bool.false_and, Bool.and_false,
      crudParamsSingle, hr1, List.filter_nil, List.find?_nil, Option.getD_none,
      List.isEmpty_nil, Bool.not_false, Bool.not_true, Bool.true_or, if_true,
      Bool.false_or, Bool.and_self, hlit]
    simp [String.append_assoc, hpe]

/-- Claim C4 witness: below the threshold the SELECT body is
parenthesized; at the threshold the base compiler's (unparenthesized)
text is returned verbatim. -/
theorem C4_insert_select_version_gate_witness :
    visit_insert ⟨"crate", (1, 0, 0), true, true, true⟩
        ⟨"INSERT INTO t (x) SELECT x FROM s", (fun t _ => t), [], false, 10⟩
        ⟨"t", none, [], [], some "SELECT x FROM s"⟩
        (CrudParams.single [(⟨"x", "t"⟩, "?")])
      = Except.ok "INSERT INTO t (x) (SELECT x FROM s)"
    ∧ visit_insert ⟨"crate", (1, 0, 1), true, true, true⟩
        ⟨"INSERT INTO t (x) SELECT x FROM s", (fun t _ => t), [], false, 10⟩
        ⟨"t", none, [], [], some "SELECT x FROM s"⟩
        (CrudParams.single [(⟨"x", "t"⟩, "?")])
      = Except.ok "INSERT INTO t (x) SELECT x FROM s" := by
  constructor
  · have h := (C4_insert_select_version_gate ⟨"crate", (1, 0, 0), true, true, true⟩
      ⟨"INSERT INTO t (x) SELECT x FROM s", (fun t _ => t), [], false, 10⟩
      ⟨"t", none, [], [], some "SELECT x FROM s"⟩
      (CrudParams.single [(⟨"x", "t"⟩, "?")]) [(⟨"x", "t"⟩, "?")] "SELECT x FROM s").2
      (by decide) (by decide) rfl rfl rfl rfl rfl rfl (by decide)
    rw [h]
    rfl
  · have h := (C4_insert_select_version_gate ⟨"crate", (1, 0, 1), true, true, true⟩
      ⟨"INSERT INTO t (x) SELECT x FROM s", (fun t _ => t), [], false, 10⟩
      ⟨"t", none, [], [], some "SELECT x FROM s"⟩
      (CrudParams.single [(⟨"x", "t"⟩, "?")]) [(⟨"x", "t"⟩, "?")] "SELECT x FROM s").1
      (by decide)
    rw [h]

/-! ### Multi-row INSERT expansion: claim C6 -/

/-- Claim C6: a multi-row INSERT of K parameter rows on a dialect
supporting multivalues insert renders the column list from the first
resolved row followed by exactly K parenthesized VALUES tuples in input
row order, every row sharing the first row's column order and arity. -/
theorem C6_multirow_insert_expansion (dialect : Dialect) (ctx : InsertCompilerCtx)
    (stmt : InsertStmt) (values0 : List (Column × String))
    (multiparams : List (List (String × SubVal))) (renderBind : String → SubVal → String)
    (hver : verGE dialect.server_version_info INSERT_SELECT_WITHOUT_PARENTHESES_MIN_VERSION
      = false)
    (hsa : ctx.saVersion < SA_1_4)
    (hmv : dialect.supports_multivalues_insert = true)
    (hsel : stmt.selectText = none) (hpre : stmt.prefixText = none)
    (hh : stmt.hints = []) (hr1 : ctx.compilerReturning = []) (hr2 : stmt.returningCols = [])
    (hv0 : values0 ≠ []) (hmp : multiparams ≠ []) :
    visit_insert dialect ctx stmt
        (CrudParams.multi (extend_values_for_multiparams values0 multiparams renderBind))
      = Except.ok ("INSERT INTO " ++ stmt.table ++ " ("
          ++ String.intercalate ", " (values0.map (fun c => format_column c.1))
          ++ ") VALUES "
          ++ String.intercalate ", "
            ((extend_values_for_multiparams values0 multiparams renderBind).map
              (fun r => "(" ++ String.intercalate ", " (r.map Prod.snd) ++ ")")))
    ∧ (extend_values_for_multiparams values0 multiparams renderBind).length
        = multiparams.length
    ∧ ∀ r ∈ extend_values_for_multiparams values0 multiparams renderBind,
        r.map Prod.fst = values0.map Prod.fst ∧ r.length = values0.length := by
  refine ⟨?_, ?_, ?_⟩
  · obtain ⟨tbl, spre, shints, srets, ssel⟩ := stmt
    simp only at hpre hh hr2 hsel
    subst hpre hh hr2 hsel
    have hsa' : ¬ (ctx.saVersion ≥ SA_1_4) := Nat.not_le.2 hsa
    have hrows : extend_values_for_multiparams values0 multiparams renderBind
        = values0 :: (multiparams.drop 1).map (fun row =>
            values0.map (fun cb =>
              (cb.1,
                match dictGet row cb.1.name with
                | some v => renderBind cb.1.name v
                | none => cb.2))) := rfl
    have hv0' : values0.isEmpty = false := by
      cases values0 with
      | nil => exact absurd rfl hv0
      | cons a l => rfl
    have hlit : ("INSERT INTO " : String) = "INSERT " ++ "INTO " := rfl
    simp only [visit_insert, hver, Bool.false_eq_true, if_false, if_neg hsa',
      crudIsEmpty, hrows, List.isEmpty_cons, hasMultiParameters, hmv,
      Bool.not_true, Bool.and_false, Bool.false_and, crudParamsSingle, List.headD_cons,
      hv0', hr1, List.filter_nil, List.find?_nil, Option.getD_none,
      List.isEmpty_nil, Bool.not_false, Bool.true_or, if_true, Bool.false_or, hlit]
    simp [String.append_assoc, hv0']
  · simp only [extend_values_for_multiparams, List.length_cons, List.length_map,
      List.length_drop]
    cases multiparams with
    | nil => exact absurd rfl hmp
    | cons m ms => simp
  · intro r hr
    rcases List.mem_cons.1 hr with hr | hr
    · subst hr
      exact ⟨rfl, rfl⟩
    · obtain ⟨row, _, hrow⟩ := List.mem_map.1 hr
      subst hrow
      constructor
      · rw [List.map_map]
        rfl
      · rw [List.length_map]

/-- Claim C6 witness: the spec's example — two rows over (x, y) render
two binary VALUES tuples in row order. -/
theorem C6_multirow_insert_expansion_witness :
    visit_insert ⟨"crate", (1, 0, 0), true, true, true⟩
        ⟨"SUPER", (fun t _ => t), [], false, 10⟩
        ⟨"t", none, [], [], none⟩
        (CrudParams.multi (extend_values_for_multiparams
          [(⟨"x", "t"⟩, "?"), (⟨"y", "t"⟩, "?")]
          [[("x", SubVal.sint 1), ("y", SubVal.sint 2)],
           [("x", SubVal.sint 3), ("y", SubVal.sint 4)]]
          (fun _ _ => "?")))
      = Except.ok "INSERT INTO t (x, y) VALUES (?, ?), (?, ?)" := by
  have h := (C6_multirow_insert_expansion ⟨"crate", (1, 0, 0), true, true, true⟩
      ⟨"SUPER", (fun t _ => t), [], false, 10⟩
      ⟨"t", none, [], [], none⟩
      [(⟨"x", "t"⟩, "?"), (⟨"y", "t"⟩, "?")]
      [[("x", SubVal.sint 1), ("y", SubVal.sint 2)],
       [("x", SubVal.sint 3), ("y", SubVal.sint 4)]]
      (fun _ _ => "?")
      (by decide) (by decide) rfl rfl rfl rfl rfl rfl (by decide) (by decide)).1
  rw [h]
  rfl

/-! ### SET-clause structure of the custom UPDATE paths: claim C3 -/

theorem ite_append (c : Prop) [Decidable c] (t x : String) :
    (if c then t ++ x else t) = t ++ (if c then x else "") := by
  by_cases h : c <;> simp [h]

theorem foldl_push_map {α : Type} (f : α → String) (l : List α) :
    ∀ init : List String, l.foldl (fun acc x => acc ++ [f x]) init = init ++ l.map f := by
  induction l with
  | nil => intro init; simp
  | cons x xs ih => intro init; simp [ih]

theorem foldl_path_clauses (procBind : String → Val → String) (ps : List (ParamKey × Val)) :
    ∀ init : List String,
      ps.foldl (fun acc kv =>
        match kv.1 with
        | ParamKey.str k =>
          if k.contains '[' then acc ++ [k ++ " = " ++ procBind k kv.2] else acc
        | ParamKey.col _ => acc) init
      = init ++ ps.filterMap (fun kv =>
          match kv.1 with
          | ParamKey.str k =>
            if k.contains '[' then some (k ++ " = " ++ procBind k kv.2) else none
          | ParamKey.col _ => none) := by
  induction ps with
  | nil => intro init; simp
  | cons kv rest ih =>
    intro init
    obtain ⟨pk, v⟩ := kv
    cases pk with
    | str k =>
      by_cases hk : k.contains '[' = true <;> simp [hk, ih]
    | col c => simp [ih]

theorem update_set_clauses_eq (ctx : UpdateCompilerCtx) (stmt : UpdateStmt)
    (crud_params : List (Column × String)) :
    update_set_clauses ctx stmt crud_params
      = crud_params.map (fun kv =>
          compilerDispatch kv.1 (!stmt._extra_froms.isEmpty &&
            ctx.render_table_with_column_in_update_from) ++ " = " ++ kv.2)
        ++ (stmt.parameters.getD []).filterMap (fun kv =>
          match kv.1 with
          | ParamKey.str k =>
            if k.contains '[' then some (k ++ " = " ++ ctx.processBind k kv.2) else none
          | ParamKey.col _ => none) := by
  simp only [update_set_clauses]
  rw [foldl_path_clauses ctx.processBind (stmt.parameters.getD []),
    foldl_push_map (fun kv : Column × String =>
      compilerDispatch kv.1 (!stmt._extra_froms.isEmpty &&
        ctx.render_table_with_column_in_update_from) ++ " = " ++ kv.2) crud_params]
  simp

theorem update14_set_clauses_eq (ctx : Update14Ctx) (cs : Update14CompileState)
    (crud_params : List (Column × String × String)) :
    update14_set_clauses ctx cs crud_params
      = crud_params.map (fun t =>
          compilerDispatch t.1 (!cs._extra_froms.isEmpty &&
            ctx.render_table_with_column_in_update_from) ++ " = " ++ t.2.2)
        ++ cs._dict_parameters.filterMap (fun kv =>
          match kv.1 with
          | ParamKey.str k =>
            if k.contains '[' then some (k ++ " = " ++ ctx.processBind k kv.2) else none
          | ParamKey.col _ => none) := by
  simp only [update14_set_clauses]
  rw [foldl_path_clauses ctx.processBind cs._dict_parameters,
    foldl_push_map (fun t : Column × String × String =>
      compilerDispatch t.1 (!cs._extra_froms.isEmpty &&
        ctx.render_table_with_column_in_update_from) ++ " = " ++ t.2.2) crud_params]
  simp

theorem appendIf_eq (c : Bool) (t x : String) :
    appendIf c t x = t ++ (if c = true then x else "") := by
  cases c <;> simp [appendIf]

theorem appendOptNonempty_eq (t : String) (opt : Option String) (pre : String) :
    appendOptNonempty t opt pre
      = t ++ (match opt with
              | some s => if s != "" then pre ++ s else ""
              | none => "") := by
  rcases opt with _ | s
  · simp [appendOptNonempty]
  · by_cases hs : (s != "") = true <;> simp [appendOptNonempty, hs]

theorem prependCte_eq (opt : Option String) (c : Bool) (t : String) :
    prependCte opt c t
      = (match opt with
         | some cte => if c then cte else ""
         | none => "") ++ t := by
  rcases opt with _ | cte
  · simp [prependCte]
  · cases c <;> simp [prependCte]

theorem visit_update_custom_decomp (ctx : UpdateCompilerCtx) (stmt : UpdateStmt)
    (crud : List (Column × String)) :
    visit_update_custom ctx stmt crud
      = update_pre_text ctx stmt
        ++ String.intercalate ", " (update_set_clauses ctx stmt crud)
        ++ update_post_text ctx stmt := by
  simp only [visit_update_custom, update_pre_text, update_post_text,
    appendIf_eq, appendOptNonempty_eq, String.append_assoc]

theorem visit_update_14_decomp (ctx14 : Update14Ctx) (stmt14 : Update14Stmt)
    (cs : Update14CompileState) (crud14 : List (Column × String × String)) :
    visit_update_14 ctx14 stmt14 cs crud14
      = update14_pre_text ctx14 stmt14
        ++ String.intercalate ", " (update14_set_clauses ctx14 cs crud14)
        ++ update14_post_text ctx14 stmt14 cs := by
  simp only [visit_update_14, update14_pre_text, update14_post_text,
    prependCte_eq, appendIf_eq, appendOptNonempty_eq, String.append_assoc]

/-- Claim C3: both custom UPDATE paths render exactly
`<pre> SET <assignments> <post>` where the assignments are, in order, one
clause per resolved crud parameter entry — the column reference
table-qualified iff extra-from tables are present and the dialect flag
requires it — followed by one `<raw-key> = <bind>` clause for every
string parameter key containing a path bracket, in parameter order,
never re-resolved as a table column. -/
theorem C3_set_clause_merge (ctx : UpdateCompilerCtx) (stmt : UpdateStmt)
    (crud : List (Column × String)) (ctx14 : Update14Ctx) (stmt14 : Update14Stmt)
    (cs : Update14CompileState) (crud14 : List (Column × String × String)) :
    visit_update_custom ctx stmt crud
        = update_pre_text ctx stmt
          ++ String.intercalate ", " (update_set_clauses ctx stmt crud)
          ++ update_post_text ctx stmt
    ∧ update_set_clauses ctx stmt crud
        = crud.map (fun kv =>
            compilerDispatch kv.1 (!stmt._extra_froms.isEmpty &&
              ctx.render_table_with_column_in_update_from) ++ " = " ++ kv.2)
          ++ (stmt.parameters.getD []).filterMap (fun kv =>
            match kv.1 with
            | ParamKey.str k =>
              if k.contains '[' then some (k ++ " = " ++ ctx.processBind k kv.2) else none
            | ParamKey.col _ => none)
    ∧ visit_update_14 ctx14 stmt14 cs crud14
        = update14_pre_text ctx14 stmt14
          ++ String.intercalate ", " (update14_set_clauses ctx14 cs crud14)
          ++ update14_post_text ctx14 stmt14 cs
    ∧ update14_set_clauses ctx14 cs crud14
        = crud14.map (fun t =>
            compilerDispatch t.1 (!cs._extra_froms.isEmpty &&
              ctx14.render_table_with_column_in_update_from) ++ " = " ++ t.2.2)
          ++ cs._dict_parameters.filterMap (fun kv =>
            match kv.1 with
            | ParamKey.str k =>
              if k.contains '[' then some (k ++ " = " ++ ctx14.processBind k kv.2) else none
            | ParamKey.col _ => none) :=
  ⟨visit_update_custom_decomp ctx stmt crud, update_set_clauses_eq ctx stmt crud,
    visit_update_14_decomp ctx14 stmt14 cs crud14, update14_set_clauses_eq ctx14 cs crud14⟩

/-! ### DDL options compiler: claim C7 -/

theorem keysNodup_crate_opts (dialectName : String) (kwargs : List (String × String)) :
    keysNodup (crate_opts dialectName kwargs) := by
  refine keysNodup_foldl kwargs _ ?_ [] (by simp [keysNodup])
  intro m x hm
  by_cases hx : strStartsWith x.1 (dialectName ++ "_") = true
  · simpa [hx] using keysNodup_dictInsert (strUpper (strDrop x.1 (dialectName.length + 1))) x.2 hm
  · simpa [hx] using hm

theorem post_create_fold (opts : List (String × String)) :
    ∀ st : String × Option String × Option String × List String,
      keysNodup opts →
      opts.foldl post_create_step st
        = (st.1 ++ special_options_text opts,
           ((dictGet opts "CLUSTERED_BY").map (fun v => " BY (" ++ v ++ ")")).orElse
             (fun _ => st.2.1),
           ((dictGet opts "NUMBER_OF_SHARDS").map
             (fun v => " INTO " ++ v ++ " SHARDS")).orElse (fun _ => st.2.2.1),
           st.2.2.2 ++ table_opts_list opts) := by
  induction opts with
  | nil =>
    intro st _
    simp [special_options_text, table_opts_list, dictGet, Option.orElse]
  | cons kv rest ih =>
    intro st hnd
    obtain ⟨k, v⟩ := kv
    unfold keysNodup at hnd
    simp only [List.map_cons, List.nodup_cons] at hnd
    have hndr : keysNodup rest := hnd.2
    by_cases hk1 : k = "PARTITIONED_BY"
    · subst hk1
      rw [List.foldl_cons, ih _ hndr]
      simp [post_create_step, special_options_text, table_opts_list, dictGet,
        String.append_assoc]
    · by_cases hk2 : k = "CLUSTERED_BY"
      · subst hk2
        have hget : dictGet rest "CLUSTERED_BY" = none := by
          exact dictGet_eq_none_of_not_mem hnd.1
        rw [List.foldl_cons, ih _ hndr]
        simp [post_create_step, special_options_text, table_opts_list, dictGet,
          hk1, hget, Option.orElse]
      · by_cases hk3 : k = "NUMBER_OF_SHARDS"
        · subst hk3
          have hget : dictGet rest "NUMBER_OF_SHARDS" = none := by
            exact dictGet_eq_none_of_not_mem hnd.1
          rw [List.foldl_cons, ih _ hndr]
          simp [post_create_step, special_options_text, table_opts_list, dictGet,
            hk1, hk2, hget, Option.orElse]
        · rw [List.foldl_cons, ih _ hndr]
          simp [post_create_step, special_options_text, table_opts_list, dictGet,
            hk1, hk2, hk3, Ne.symm hk1, Ne.symm hk2, Ne.symm hk3]

theorem post_create_table_decomp (dialectName : String) (kwargs : List (String × String)) :
    post_create_table dialectName kwargs
      = special_options_text (crate_opts dialectName kwargs)
        ++ clustered_option_text (crate_opts dialectName kwargs)
        ++ with_clause_text (crate_opts dialectName kwargs) := by
  have hnd := keysNodup_crate_opts dialectName kwargs
  simp only [post_create_table]
  rw [post_create_fold (crate_opts dialectName kwargs) ("", none, none, []) hnd]
  unfold clustered_option_text with_clause_text
  rcases hc : dictGet (crate_opts dialectName kwargs) "CLUSTERED_BY" with _ | cv <;>
    rcases hn : dictGet (crate_opts dialectName kwargs) "NUMBER_OF_SHARDS" with _ | nv <;>
    cases ht : (table_opts_list (crate_opts dialectName kwargs)).isEmpty <;>
    simp only [hc, hn, ht, Option.map_some', Option.map_none', Option.orElse,
      Option.isSome_some, Option.isSome_none, Bool.or_true, Bool.true_or, Bool.false_or,
      Bool.or_false, Bool.or_self, Option.getD_some, Option.getD_none, Bool.not_true,
      Bool.not_false, if_true, if_false, ite_true, ite_false, List.nil_append,
      Bool.false_eq_true, Bool.true_eq_false, eq_self_iff_true,
      String.append_assoc, String.append_empty, String.empty_append]

/-- Claim C7 counterexample: on the spec's own example options the
emitted WITH block carries the uppercased option name
(`REFRESH_INTERVAL`), so the claimed exact text (with lowercase
`refresh_interval`) is not produced. -/
theorem C7_counterexample :
    post_create_table "crate"
        [("crate_partitioned_by", "region"), ("crate_number_of_shards", "4"),
         ("crate_clustered_by", "id"), ("crate_refresh_interval", "500")]
      ≠ " PARTITIONED BY (region) CLUSTERED BY (id) INTO 4 SHARDS WITH (refresh_interval = 500)" := by
  decide

/-- Claim C7 (amended): clause order is fixed — special clauses, then the
combined clustered clause (each sub-part independently optional), then
the WITH block with lexically sorted entries, every clause omitted when
its source option is absent; the example options render exactly
` PARTITIONED BY (region) CLUSTERED BY (id) INTO 4 SHARDS WITH
(REFRESH_INTERVAL = 500)` — the WITH key is the uppercased option name. -/
theorem C7_ddl_clause_order_amended (dialectName : String)
    (kwargs : List (String × String)) :
    post_create_table dialectName kwargs
        = special_options_text (crate_opts dialectName kwargs)
          ++ clustered_option_text (crate_opts dialectName kwargs)
          ++ with_clause_text (crate_opts dialectName kwargs)
    ∧ List.Sorted (fun a b : String => a ≤ b)
        (List.insertionSort (fun a b => a ≤ b)
          (table_opts_list (crate_opts dialectName kwargs)))
    ∧ List.Perm
        (List.insertionSort (fun a b => a ≤ b)
          (table_opts_list (crate_opts dialectName kwargs)))
        (table_opts_list (crate_opts dialectName kwargs))
    ∧ post_create_table "crate"
        [("crate_partitioned_by", "region"), ("crate_number_of_shards", "4"),
         ("crate_clustered_by", "id"), ("crate_refresh_interval", "500")]
      = " PARTITIONED BY (region) CLUSTERED BY (id) INTO 4 SHARDS WITH (REFRESH_INTERVAL = 500)" := by
  refine ⟨post_create_table_decomp dialectName kwargs, ?_, ?_, by decide⟩
  · exact List.sorted_insertionSort _ _
  · exact List.perm_insertionSort _ _

/-! ### Crud resolution and the disabled unconsumed-column check: claim C9 -/

theorem scan_cols_fold_mem (table : List Column) :
    ∀ st : List CrudTriple × List (String × CrudParamVal),
      ∀ t ∈ (table.foldl scan_cols_step st).1, t.1 ∈ table ∨ t ∈ st.1 := by
  induction table with
  | nil =>
    intro st t ht
    exact Or.inr ht
  | cons c rest ih =>
    intro st t ht
    rw [List.foldl_cons] at ht
    rcases ih (scan_cols_step st c) t ht with h | h
    · exact Or.inl (List.mem_cons_of_mem c h)
    · obtain ⟨vals, pars⟩ := st
      simp only [scan_cols_step] at h
      rcases hd : dictGet pars c.name with _ | v
      · rw [hd] at h
        exact Or.inr h
      · rw [hd] at h
        simp only at h
        rcases List.mem_append.1 h with h | h
        · exact Or.inr h
        · simp only [List.mem_singleton] at h
          subst h
          exact Or.inl (List.mem_cons_self c rest)

theorem crud_values_final_mem (table : List Column) (hm fe : Bool)
    (P : List (String × CrudParamVal)) :
    ∀ t ∈ crud_values_final table hm fe (scan_cols table P).1, t.1 ∈ table := by
  intro t ht
  unfold crud_values_final at ht
  split at ht
  · rcases table with _ | ⟨c, rest⟩
    · simp at ht
    · simp only [List.mem_singleton] at ht
      subst ht
      exact List.mem_cons_self c rest
  · rcases scan_cols_fold_mem table ([], P) t ht with h | h
    · exact h
    · simp at h

/-- Claim C9 counterexample: an UPDATE carrying the explicit parameter
key `y`, which resolves to no column of the single-column table `x`,
compiles without any error — the result is `ok` (here with no entries at
all) although the transcribed (disabled) validation finds the unconsumed
key `y`.  The claimed configuration error is never raised. -/
theorem C9_counterexample :
    get_crud_params_14 (some ["y"]) [⟨"x", "t"⟩]
        ⟨false, false, [], [("y", SubVal.sint 1)]⟩ false
      = Except.ok []
    ∧ unconsumed_column_names
        (scan_cols [⟨"x", "t"⟩]
          (get_stmt_parameter_tuples_params [] [("y", SubVal.sint 1)])).2
        [("y", SubVal.sint 1)] []
      = ["y"] := by
  exact ⟨rfl, by decide⟩

/-- Claim C9 (amended): the dialect's crud-parameter resolution performs
no unconsumed-column validation (the upstream check is disabled in the
source as a "CrateDB amendment"): it always returns `ok`, never a
configuration error, and every returned entry targets an actual table
column — explicit parameter keys that resolve to no column are silently
dropped. -/
theorem C9_resolution_never_raises_amended (column_keys : Option (List String))
    (table : List Column) (cs : CrudCompileState14) (fe : Bool) :
    ∃ vs, get_crud_params_14 column_keys table cs fe = Except.ok vs
      ∧ ∀ t ∈ vs, t.1 ∈ table := by
  unfold get_crud_params_14
  split
  · refine ⟨_, rfl, ?_⟩
    intro t ht
    obtain ⟨c, hc, hct⟩ := List.mem_map.1 ht
    rw [← hct]
    exact hc
  · exact ⟨_, rfl, crud_values_final_mem table cs._has_multi_parameters fe _⟩
